import Mathlib

/-!
# Verification of an Unscented Kalman Filter (CTRV model, lidar + radar)

Shallow embedding of `src/ukf.cpp` over the real numbers.  The estimator state
(`UKF` class members that the algorithms read and write) is the structure
`UKFState`; each member function of the class becomes a Lean function on that
structure.  Floating-point `double` arithmetic is modelled by `ℝ`; Eigen
vectors/matrices of the fixed sizes 5, 7, 15, 2, 3 become functions out of
`Fin n` and `Matrix (Fin m) (Fin n) ℝ`.

Two library calls of Eigen have no failure channel and are modelled as follows:
* `P_aug.llt().matrixL()` (`GenerateSigmaPoints`): the returned factor is taken
  from an explicit function parameter `llt`, since Eigen returns *some* matrix
  whether or not the factorization succeeded;
* `S.inverse()` (`UpdateLidar`/`UpdateRadar`): modelled by Mathlib's matrix
  inverse (which agrees with Eigen's on invertible input).
-/

namespace UKF

open Real Matrix Filter Topology

noncomputable section

/-! ## Fixed parameters set in the constructor `UKF::UKF` (ukf.cpp:10-93) -/

/-- `n_x_ = 5` (ukf.cpp:18). -/
def n_x : ℕ := 5

/-- `n_aug_ = 7` (ukf.cpp:21). -/
def n_aug : ℕ := 7

/-- `lambda_ = 3 - n_aug_` (ukf.cpp:24). -/
def lam : ℝ := 3 - (n_aug : ℝ)

/-- `std_a_ = 2.0` (ukf.cpp:33). -/
def std_a : ℝ := 2.0

/-- `std_yawdd_ = 2.0` (ukf.cpp:36). -/
def std_yawdd : ℝ := 2.0

/-- `std_laspx_ = 0.15` (ukf.cpp:44). -/
def std_laspx : ℝ := 0.15

/-- `std_laspy_ = 0.15` (ukf.cpp:47). -/
def std_laspy : ℝ := 0.15

/-- `std_radr_ = 0.3` (ukf.cpp:50). -/
def std_radr : ℝ := 0.3

/-- `std_radphi_ = 0.03` (ukf.cpp:53). -/
def std_radphi : ℝ := 0.03

/-- `std_radrd_ = 0.3` (ukf.cpp:56). -/
def std_radrd : ℝ := 0.3

/-- `weights_` (ukf.cpp:66-68): filled with `1/(2*(lambda_+n_aug_))`, then
entry 0 overwritten with `lambda_/(lambda_+n_aug_)`. -/
def weights : Fin 15 → ℝ := fun i =>
  if i = 0 then lam / (lam + (n_aug : ℝ)) else 1 / (2 * (lam + (n_aug : ℝ)))

/-- `Lidar_H_` (ukf.cpp:74-77): zero except `H(0,0) = H(1,1) = 1`. -/
def Lidar_H : Matrix (Fin 2) (Fin 5) ℝ := fun i j =>
  if (i.val = 0 ∧ j.val = 0) ∨ (i.val = 1 ∧ j.val = 1) then 1 else 0

/-- `Lidar_R_` (ukf.cpp:80-83). -/
def Lidar_R : Matrix (Fin 2) (Fin 2) ℝ :=
  Matrix.diagonal ![std_laspx * std_laspx, std_laspy * std_laspy]

/-- `Radar_R_` (ukf.cpp:89-92). -/
def Radar_R : Matrix (Fin 3) (Fin 3) ℝ :=
  Matrix.diagonal ![std_radr * std_radr, std_radphi * std_radphi, std_radrd * std_radrd]

/-! ## Data model -/

/-- `MeasurementPackage::SensorType`. -/
inductive SensorType where
  | LASER : SensorType
  | RADAR : SensorType
deriving DecidableEq

/-- A measurement record.  `raw_measurements_` is an `Eigen::VectorXd` whose
length depends on the sensor; we model it as a list.  Out-of-range coefficient
access in Eigen is unchecked (undefined behaviour in release builds); a read
past the end is modelled as the default value `0`. -/
structure MeasurementPackage where
  sensor_type : SensorType
  raw : List ℝ
  timestamp : ℤ

/-- The mutable members of the `UKF` class that the algorithms touch. -/
structure UKFState where
  use_laser : Bool
  use_radar : Bool
  x : Fin 5 → ℝ
  P : Matrix (Fin 5) (Fin 5) ℝ
  Xsig_pred : Matrix (Fin 5) (Fin 15) ℝ
  time_us : ℤ
  is_initialized : Bool

/-! ## Angle normalization

The source repeats the idiom

    while (d >  M_PI) d -= 2*M_PI;
    while (d < -M_PI) d += 2*M_PI;

(ukf.cpp:235-236, 297-298, 313-314, 319-320, 332-333).  The first loop
subtracts `2π` exactly `max 0 ⌈(d-π)/(2π)⌉` times (the least number of
subtractions making the value `≤ π`); the second adds `2π` exactly
`max 0 ⌈(-π-d)/(2π)⌉` times (the least number of additions making the value
`≥ -π`).  We embed each loop by that closed form. -/

/-- Closed form of `while (d > M_PI) d -= 2*M_PI`. -/
def wrapDown (θ : ℝ) : ℝ := θ - 2 * π * ((max 0 ⌈(θ - π) / (2 * π)⌉ : ℤ) : ℝ)

/-- Closed form of `while (d < -M_PI) d += 2*M_PI`. -/
def wrapUp (θ : ℝ) : ℝ := θ + 2 * π * ((max 0 ⌈(-π - θ) / (2 * π)⌉ : ℤ) : ℝ)

/-- Both loops in sequence, as the source always runs them. -/
def normAngle (θ : ℝ) : ℝ := wrapUp (wrapDown θ)

/-! ## Unscented predictor (ukf.cpp:140-240) -/

/-- Augmented mean `x_aug` (ukf.cpp:153-156): the state mean extended by two
zero noise placeholders. -/
def x_aug (x : Fin 5 → ℝ) : Fin 7 → ℝ := fun i =>
  if h : i.val < 5 then x ⟨i.val, h⟩ else 0

/-- Augmented covariance `P_aug` (ukf.cpp:159-163): `P` in the top-left block,
the two process-noise variances at `(5,5)` and `(6,6)`, zero elsewhere. -/
def P_aug (P : Matrix (Fin 5) (Fin 5) ℝ) : Matrix (Fin 7) (Fin 7) ℝ := fun i j =>
  if hi : i.val < 5 then
    (if hj : j.val < 5 then P ⟨i.val, hi⟩ ⟨j.val, hj⟩ else 0)
  else if i = j then (if i.val = 5 then std_a * std_a else std_yawdd * std_yawdd)
  else 0

/-- `GenerateSigmaPoints` (ukf.cpp:151-174).  Column 0 is the augmented mean;
columns `1..7` are `x_aug + sqrt(lambda_+n_aug_) * root.col(i)` and columns
`8..14` the corresponding minus points.  `root` is whatever
`P_aug.llt().matrixL()` returned, supplied through the parameter `llt`. -/
def generateSigmaPoints (llt : Matrix (Fin 7) (Fin 7) ℝ → Matrix (Fin 7) (Fin 7) ℝ)
    (x : Fin 5 → ℝ) (P : Matrix (Fin 5) (Fin 5) ℝ) : Matrix (Fin 7) (Fin 15) ℝ :=
  let xa := x_aug x
  let root := llt (P_aug P)
  fun j i =>
    if i.val = 0 then xa j
    else if h : i.val ≤ 7 then
      xa j + Real.sqrt (lam + (n_aug : ℝ)) * root j ⟨i.val - 1, by omega⟩
    else
      xa j - Real.sqrt (lam + (n_aug : ℝ)) * root j ⟨i.val - 8, by
        have := i.isLt; omega⟩

/-- Curved-path position update, x component (ukf.cpp:193). -/
def curvedPx (px v yaw yawd dt : ℝ) : ℝ :=
  px + v / yawd * (Real.sin (yaw + yawd * dt) - Real.sin yaw)

/-- Curved-path position update, y component (ukf.cpp:194). -/
def curvedPy (py v yaw yawd dt : ℝ) : ℝ :=
  py + v / yawd * (-1 * Real.cos (yaw + yawd * dt) + Real.cos yaw)

/-- Straight-line position update, x component (ukf.cpp:197). -/
def straightPx (px v yaw dt : ℝ) : ℝ := px + v * Real.cos yaw * dt

/-- Straight-line position update, y component (ukf.cpp:198). -/
def straightPy (py v yaw dt : ℝ) : ℝ := py + v * Real.sin yaw * dt

/-- The CTRV propagation of one augmented sigma point: the loop body of
`SigmaPointsPrediction` (ukf.cpp:178-218), including the branch on
`fabs(yawd) > 0.001` and the additive process-noise terms. -/
def ctrvProcess (c : Fin 7 → ℝ) (dt : ℝ) : Fin 5 → ℝ :=
  let px := c 0
  let py := c 1
  let v := c 2
  let yaw := c 3
  let yawd := c 4
  let nu_a := c 5
  let nu_yawdd := c 6
  let px_pred := if |yawd| > 0.001 then curvedPx px v yaw yawd dt
                 else straightPx px v yaw dt
  let py_pred := if |yawd| > 0.001 then curvedPy py v yaw yawd dt
                 else straightPy py v yaw dt
  ![px_pred + 0.5 * dt * dt * Real.cos yaw * nu_a,
    py_pred + 0.5 * dt * dt * Real.sin yaw * nu_a,
    v + dt * nu_a,
    yaw + yawd * dt + 0.5 * dt * dt * nu_yawdd,
    yawd + dt * nu_yawdd]

/-- `SigmaPointsPrediction` (ukf.cpp:176-219): propagate every augmented sigma
point column through the CTRV model. -/
def sigmaPointsPrediction (Xa : Matrix (Fin 7) (Fin 15) ℝ) (dt : ℝ) :
    Matrix (Fin 5) (Fin 15) ℝ :=
  fun j i => ctrvProcess (fun k => Xa k i) dt j

/-- Predicted state mean (ukf.cpp:223-226): weighted sum of the predicted
sigma points. -/
def predictMean (Xp : Matrix (Fin 5) (Fin 15) ℝ) : Fin 5 → ℝ :=
  fun j => ∑ i, weights i * Xp j i

/-- The state difference `Xsig_pred_.col(i) - x_` with its heading component
(index 3) angle-normalized (ukf.cpp:232-236, 317-320). -/
def stateDiff (Xp : Matrix (Fin 5) (Fin 15) ℝ) (x : Fin 5 → ℝ) (i : Fin 15) :
    Fin 5 → ℝ :=
  fun j => if j.val = 3 then normAngle (Xp j i - x j) else Xp j i - x j

/-- Predicted state covariance (ukf.cpp:229-239): weighted sum of outer
products of normalized state differences. -/
def predictCov (Xp : Matrix (Fin 5) (Fin 15) ℝ) : Matrix (Fin 5) (Fin 5) ℝ :=
  ∑ i, weights i •
    vecMulVec (stateDiff Xp (predictMean Xp) i) (stateDiff Xp (predictMean Xp) i)

/-- `PredictMeanAndCovariance` (ukf.cpp:221-240): overwrite `x_` and `P_`
with the weighted recombination of the stored predicted sigma points. -/
def predictMeanAndCovariance (s : UKFState) : UKFState :=
  { s with x := predictMean s.Xsig_pred, P := predictCov s.Xsig_pred }

/-- `Prediction` (ukf.cpp:140-149): generate sigma points, propagate them
(storing the result in `Xsig_pred_`), recombine into the new mean and
covariance. -/
def prediction (llt : Matrix (Fin 7) (Fin 7) ℝ → Matrix (Fin 7) (Fin 7) ℝ)
    (dt : ℝ) (s : UKFState) : UKFState :=
  let Xa := generateSigmaPoints llt s.x s.P
  predictMeanAndCovariance { s with Xsig_pred := sigmaPointsPrediction Xa dt }

/-! ## Linear (lidar) corrector (ukf.cpp:242-255) -/

/-- Innovation covariance `S = Lidar_H_ * P_ * Ht + Lidar_R_` (ukf.cpp:246). -/
def lidarS (P : Matrix (Fin 5) (Fin 5) ℝ) : Matrix (Fin 2) (Fin 2) ℝ :=
  Lidar_H * P * Lidar_Hᵀ + Lidar_R

/-- Kalman gain `K = P_ * Ht * S.inverse()` (ukf.cpp:247-249). -/
def lidarK (P : Matrix (Fin 5) (Fin 5) ℝ) : Matrix (Fin 5) (Fin 2) ℝ :=
  P * Lidar_Hᵀ * (lidarS P)⁻¹

/-- `UpdateLidar` (ukf.cpp:242-255). -/
def updateLidar (s : UKFState) (m : MeasurementPackage) : UKFState :=
  let z_pred : Fin 2 → ℝ := Lidar_H.mulVec s.x
  let y : Fin 2 → ℝ := fun i => m.raw.getD i.val 0 - z_pred i
  let K := lidarK s.P
  { s with x := s.x + K.mulVec y, P := (1 - K * Lidar_H) * s.P }

/-! ## Nonlinear (radar) corrector (ukf.cpp:257-338) -/

/-- The C library `atan2`, written out by cases. -/
def atan2 (y x : ℝ) : ℝ :=
  if 0 < x then Real.arctan (y / x)
  else if x < 0 then
    (if 0 ≤ y then Real.arctan (y / x) + π else Real.arctan (y / x) - π)
  else if 0 < y then π / 2
  else if y < 0 then -(π / 2)
  else 0

/-- The range `sqrt(p_x*p_x + p_y*p_y)`, used both as the first measurement
component and as the divisor of the range-rate (ukf.cpp:279, 281). -/
def radarRange (px py : ℝ) : ℝ := Real.sqrt (px * px + py * py)

/-- Projection of the predicted sigma points into radar measurement space
(ukf.cpp:268-282): range, bearing, range-rate. -/
def radarZsig (Xp : Matrix (Fin 5) (Fin 15) ℝ) : Matrix (Fin 3) (Fin 15) ℝ :=
  fun j i =>
    let p_x := Xp 0 i
    let p_y := Xp 1 i
    let v := Xp 2 i
    let yaw := Xp 3 i
    let v1 := Real.cos yaw * v
    let v2 := Real.sin yaw * v
    ![radarRange p_x p_y, atan2 p_y p_x,
      (p_x * v1 + p_y * v2) / radarRange p_x p_y] j

/-- Mean predicted measurement (ukf.cpp:285-288). -/
def radarZpred (Zs : Matrix (Fin 3) (Fin 15) ℝ) : Fin 3 → ℝ :=
  fun j => ∑ i, weights i * Zs j i

/-- The measurement-space residual `Zsig.col(i) - z_pred` with its bearing
component (index 1) angle-normalized (ukf.cpp:294-298, 311-314). -/
def measDiff (Zs : Matrix (Fin 3) (Fin 15) ℝ) (zp : Fin 3 → ℝ) (i : Fin 15) :
    Fin 3 → ℝ :=
  fun j => if j.val = 1 then normAngle (Zs j i - zp j) else Zs j i - zp j

/-- Innovation covariance `S` (ukf.cpp:291-304): weighted outer products of
normalized measurement residuals plus `Radar_R_`. -/
def radarS (Zs : Matrix (Fin 3) (Fin 15) ℝ) : Matrix (Fin 3) (Fin 3) ℝ :=
  (∑ i, weights i •
    vecMulVec (measDiff Zs (radarZpred Zs) i) (measDiff Zs (radarZpred Zs) i))
    + Radar_R

/-- Cross-correlation matrix `Tc` (ukf.cpp:307-323). -/
def radarTc (Xp : Matrix (Fin 5) (Fin 15) ℝ) (x : Fin 5 → ℝ)
    (Zs : Matrix (Fin 3) (Fin 15) ℝ) : Matrix (Fin 5) (Fin 3) ℝ :=
  ∑ i, weights i •
    vecMulVec (stateDiff Xp x i) (measDiff Zs (radarZpred Zs) i)

/-- `UpdateRadar` (ukf.cpp:257-338). -/
def updateRadar (s : UKFState) (m : MeasurementPackage) : UKFState :=
  let Zs := radarZsig s.Xsig_pred
  let zp := radarZpred Zs
  let S := radarS Zs
  let Tc := radarTc s.Xsig_pred s.x Zs
  let K := Tc * S⁻¹
  let zdiff : Fin 3 → ℝ := fun j =>
    if j.val = 1 then normAngle (m.raw.getD j.val 0 - zp j)
    else m.raw.getD j.val 0 - zp j
  { s with x := s.x + K.mulVec zdiff, P := s.P - K * S * Kᵀ }

/-! ## Entry point (ukf.cpp:97-138) -/

/-- The initialization branch of `ProcessMeasurement` (ukf.cpp:109-137). -/
def initState (s : UKFState) (m : MeasurementPackage) : UKFState :=
  if m.sensor_type = SensorType.LASER then
    { s with
      is_initialized := true
      time_us := m.timestamp
      x := ![m.raw.getD 0 0, m.raw.getD 1 0, 0, 0, 0]
      P := Matrix.diagonal ![std_laspx * std_laspx, std_laspy * std_laspy, 1, 1, 1] }
  else
    let rho := m.raw.getD 0 0
    let phi := m.raw.getD 1 0
    { s with
      is_initialized := true
      time_us := m.timestamp
      x := ![rho * Real.cos phi, rho * Real.sin phi, 0, 0, 0]
      P := Matrix.diagonal ![(std_radr + std_radphi) * (std_radr + std_radphi),
        (std_radr + std_radphi) * (std_radr + std_radphi), 1, 1, 1] }

/-- `delta_t = (meas_package.timestamp_ - time_us_) / 1000000.0` (ukf.cpp:99). -/
def deltaT (s : UKFState) (m : MeasurementPackage) : ℝ :=
  ((m.timestamp - s.time_us : ℤ) : ℝ) / 1000000

/-- `ProcessMeasurement` (ukf.cpp:97-138).  When already initialized: predict
with the elapsed time, record the timestamp, then dispatch on sensor type and
the corresponding enable flag; otherwise run the initialization branch. -/
def processMeasurement (llt : Matrix (Fin 7) (Fin 7) ℝ → Matrix (Fin 7) (Fin 7) ℝ)
    (s : UKFState) (m : MeasurementPackage) : UKFState :=
  if s.is_initialized then
    let s1 := prediction llt (deltaT s m) s
    let s2 := { s1 with time_us := m.timestamp }
    if m.sensor_type = SensorType.LASER ∧ s.use_laser then updateLidar s2 m
    else if m.sensor_type = SensorType.RADAR ∧ s.use_radar then updateRadar s2 m
    else s2
  else initState s m

/-! ## Concrete estimator states and measurements used in the theorems -/

/-- A generic initialized state with identity covariance. -/
def witState : UKFState :=
  { use_laser := true
    use_radar := true
    x := fun _ => 0
    P := 1
    Xsig_pred := fun _ _ => 0
    time_us := 0
    is_initialized := true }

/-- A lidar measurement `(1, 2)` at time 1. -/
def witMeas : MeasurementPackage := ⟨SensorType.LASER, [1, 2], 1⟩

/-- A radar measurement at time 1. -/
def witMeasRadar : MeasurementPackage := ⟨SensorType.RADAR, [1, 0, 0], 1⟩

/-- `witState` with both sensor fusion flags disabled. -/
def disState : UKFState := { witState with use_laser := false, use_radar := false }

/-- An uninitialized state. -/
def preInitState : UKFState := { witState with is_initialized := false, P := 0 }

/-- A declared-lidar measurement whose raw vector has only one component
instead of two. -/
def malformedLaser : MeasurementPackage := ⟨SensorType.LASER, [5], 0⟩

/-- An initialized state whose reference time is 42 microseconds. -/
def staleState : UKFState := { witState with time_us := 42 }

/-- A measurement carrying the same timestamp as `staleState`’s reference
time, so the elapsed time is zero. -/
def staleMeas : MeasurementPackage := ⟨SensorType.LASER, [1, 2], 42⟩

/-- A state whose covariance is negative definite, so the augmented
covariance has no Cholesky factorization. -/
def degState : UKFState := { witState with P := -1 }

/-- Predicted sigma points that are zero except for entry `(0,0) = 1`. -/
def XcA : Matrix (Fin 5) (Fin 15) ℝ := fun j i => if j = 0 ∧ i = 0 then 1 else 0

/-- An estimator state with symmetric PSD covariance (the identity) holding
the predicted sigma points `XcA`. -/
def sCA : UKFState := { witState with Xsig_pred := XcA }

/-- Sigma-point speeds for the radar counterexample: `0.1` at the center
point, `0` elsewhere. -/
def vcR : Fin 15 → ℝ := fun i => if i = 0 then 0.1 else 0

/-- Predicted sigma points all at position `(1, 0)` with heading and
yaw-rate `0`, and speed `vcR i`. -/
def XcR : Matrix (Fin 5) (Fin 15) ℝ := fun j i =>
  if j = 0 then 1 else if j = 2 then vcR i else 0

/-- The speeds' deviations from their weighted mean `-2/15`. -/
def dvR : Fin 15 → ℝ := fun i => if i = 0 then 7 / 30 else 2 / 15

/-- The radar projection of `XcR`, computed in closed form. -/
def ZcR : Matrix (Fin 3) (Fin 15) ℝ := fun j i =>
  if j = 0 then 1 else if j = 1 then 0 else vcR i

/-- An estimator state with symmetric PSD covariance (zero) whose predicted
sigma points are `XcR` and whose mean is their weighted recombination. -/
def sCR : UKFState :=
  { use_laser := true
    use_radar := true
    x := ![1, 0, -(2 / 15), 0, 0]
    P := 0
    Xsig_pred := XcR
    time_us := 0
    is_initialized := true }

/-- A radar measurement fed to the radar corrector at `sCR` (its values do
not enter the covariance update). -/
def mCR : MeasurementPackage := ⟨SensorType.RADAR, [1, 0, 0], 0⟩

end

/-! ## Helper lemmas about the weights -/

theorem weights_zero : weights 0 = -(4 / 3) := by
  simp only [weights, if_pos rfl, lam, n_aug]
  norm_num

theorem weights_succ (i : Fin 14) : weights i.succ = 1 / 6 := by
  simp only [weights, if_neg (Fin.succ_ne_zero i), lam, n_aug]
  norm_num

theorem weights_ne_zero (i : Fin 15) (h : i ≠ 0) : weights i = 1 / 6 := by
  simp only [weights, if_neg h, lam, n_aug]
  norm_num

/-- Weighted sums collapse when the summand is constant off the center index. -/
theorem sum_weights_mul (f : Fin 15 → ℝ) (a : ℝ) (hf : ∀ i : Fin 15, i ≠ 0 → f i = a) :
    ∑ i, weights i * f i = -(4 / 3) * f 0 + 7 / 3 * a := by
  rw [Fin.sum_univ_succ]
  have h1 : ∀ i : Fin 14, weights i.succ * f i.succ = 1 / 6 * a := by
    intro i
    rw [weights_succ, hf _ (Fin.succ_ne_zero i)]
  rw [Finset.sum_congr rfl fun i _ => h1 i, Finset.sum_const, weights_zero]
  simp [Finset.card_univ]
  ring

theorem weights_sum : ∑ i, weights i = 1 := by
  have h := sum_weights_mul (fun _ => 1) 1 (fun _ _ => rfl)
  simp only [mul_one] at h
  rw [h]
  norm_num

/-! ## Helper lemmas about the angle-normalization loops -/

theorem two_pi_pos : (0 : ℝ) < 2 * π := by positivity

theorem wrapDown_of_le {θ : ℝ} (h : θ ≤ π) : wrapDown θ = θ := by
  have hc : ⌈(θ - π) / (2 * π)⌉ ≤ 0 := by
    rw [Int.ceil_le]
    push_cast
    apply div_nonpos_of_nonpos_of_nonneg (by linarith) (by positivity)
  rw [wrapDown, max_eq_left hc]
  simp

theorem wrapDown_mem {θ : ℝ} (h : π < θ) : wrapDown θ ∈ Set.Ioc (-π) π := by
  set k : ℤ := ⌈(θ - π) / (2 * π)⌉ with hk
  have hpos : 0 < (θ - π) / (2 * π) := div_pos (by linarith) two_pi_pos
  have hk1 : 1 ≤ k := by
    rw [hk]
    exact_mod_cast Int.ceil_pos.mpr hpos
  have hmax : max 0 k = k := max_eq_right (by omega)
  have hle : (θ - π) / (2 * π) ≤ (k : ℝ) := Int.le_ceil _
  have hlt : (k : ℝ) < (θ - π) / (2 * π) + 1 := Int.ceil_lt_add_one _
  have h1 : θ - π ≤ 2 * π * k := by
    rw [div_le_iff₀ two_pi_pos] at hle
    linarith
  have h2 : 2 * π * k < θ + π := by
    have := (lt_div_iff₀ two_pi_pos).mp (by linarith : (k : ℝ) - 1 < (θ - π) / (2 * π))
    linarith
  constructor
  · rw [wrapDown, hmax]
    linarith
  · rw [wrapDown, hmax]
    linarith

theorem wrapUp_of_ge {θ : ℝ} (h : -π ≤ θ) : wrapUp θ = θ := by
  have hc : ⌈(-π - θ) / (2 * π)⌉ ≤ 0 := by
    rw [Int.ceil_le]
    push_cast
    apply div_nonpos_of_nonpos_of_nonneg (by linarith) (by positivity)
  rw [wrapUp, max_eq_left hc]
  simp

theorem wrapUp_mem {θ : ℝ} (h : θ < -π) : wrapUp θ ∈ Set.Ico (-π) π := by
  set k : ℤ := ⌈(-π - θ) / (2 * π)⌉ with hk
  have hpos : 0 < (-π - θ) / (2 * π) := div_pos (by linarith) two_pi_pos
  have hk1 : 1 ≤ k := by
    rw [hk]
    exact_mod_cast Int.ceil_pos.mpr hpos
  have hmax : max 0 k = k := max_eq_right (by omega)
  have hle : (-π - θ) / (2 * π) ≤ (k : ℝ) := Int.le_ceil _
  have hlt : (k : ℝ) < (-π - θ) / (2 * π) + 1 := Int.ceil_lt_add_one _
  have h1 : -π - θ ≤ 2 * π * k := by
    rw [div_le_iff₀ two_pi_pos] at hle
    linarith
  have h2 : 2 * π * k < -π - θ + 2 * π := by
    have := (lt_div_iff₀ two_pi_pos).mp (by linarith : (k : ℝ) - 1 < (-π - θ) / (2 * π))
    linarith
  constructor
  · rw [wrapUp, hmax]
    linarith
  · rw [wrapUp, hmax]
    linarith

theorem wrapDown_le (θ : ℝ) : wrapDown θ ≤ π := by
  rcases le_or_lt θ π with h | h
  · rw [wrapDown_of_le h]
    exact h
  · exact (wrapDown_mem h).2

theorem normAngle_mem_Icc (θ : ℝ) : normAngle θ ∈ Set.Icc (-π) π := by
  rw [normAngle]
  rcases le_or_lt (-π) (wrapDown θ) with h | h
  · rw [wrapUp_of_ge h]
    exact ⟨h, wrapDown_le θ⟩
  · have := wrapUp_mem h
    exact ⟨this.1, this.2.le⟩

theorem normAngle_of_mem {θ : ℝ} (h : θ ∈ Set.Ioc (-π) π) : normAngle θ = θ := by
  rw [normAngle, wrapDown_of_le h.2, wrapUp_of_ge h.1.le]

theorem normAngle_zero : normAngle 0 = 0 :=
  normAngle_of_mem ⟨by simpa using pi_pos, pi_pos.le⟩

theorem normAngle_neg_pi : normAngle (-π) = -π := by
  rw [normAngle, wrapDown_of_le (by linarith [pi_pos]), wrapUp_of_ge le_rfl]

theorem normAngle_62 : normAngle (3.1 - (-3.1)) = 6.2 - 2 * π := by
  have h1 : π < 6.2 := by
    have := Real.pi_lt_d2
    linarith
  have h3 : (6.2 : ℝ) ≤ 3 * π := by
    have := Real.pi_gt_d6
    linarith
  have hc : ⌈((3.1 - (-3.1) : ℝ) - π) / (2 * π)⌉ = 1 := by
    rw [Int.ceil_eq_iff]
    constructor
    · push_cast
      rw [lt_div_iff₀ two_pi_pos]
      norm_num
      linarith
    · push_cast
      rw [div_le_one two_pi_pos]
      norm_num
      linarith
  have hdown : wrapDown (3.1 - (-3.1)) = 6.2 - 2 * π := by
    rw [wrapDown, hc]
    norm_num
  rw [normAngle, hdown, wrapUp_of_ge (by linarith)]

/-! ## Claim C4: angle normalization range -/

/-- C4 counterexample: the loops normalize into the closed interval
`[-π, π]`, not the half-open `(-π, π]`: the heading difference `0 - π`
(sigma-point headings `0` and `π`) is left at `-π`, which is outside
`(-π, π]`. -/
theorem angle_norm_counterexample :
    normAngle (0 - π) = -π ∧ normAngle (0 - π) ∉ Set.Ioc (-π) π := by
  have h : normAngle (0 - π) = -π := by
    rw [zero_sub]
    exact normAngle_neg_pi
  refine ⟨h, ?_⟩
  rw [h]
  simp

/-- C4 (amended): every heading or bearing angle difference used in a
covariance, cross-covariance, or residual computation is passed through
`normAngle` (heading = component 3 of a state difference, bearing =
component 1 of a measurement difference), whose result always lies in the
closed interval `[-π, π]` (inputs already in `(-π, π]` are unchanged); for
the two sigma-point headings `+3.1` and `-3.1` the normalized difference is
`6.2 - 2π`, whose magnitude is `2π - 6.2`, not `6.2`. -/
theorem angle_norm_range :
    (∀ Xp x i, stateDiff Xp x i 3 = normAngle (Xp 3 i - x 3))
    ∧ (∀ Zs zp i, measDiff Zs zp i 1 = normAngle (Zs 1 i - zp 1))
    ∧ (∀ θ : ℝ, normAngle θ ∈ Set.Icc (-π) π)
    ∧ (∀ θ : ℝ, θ ∈ Set.Ioc (-π) π → normAngle θ = θ)
    ∧ normAngle (3.1 - (-3.1)) = 6.2 - 2 * π
    ∧ |normAngle (3.1 - (-3.1))| = 2 * π - 6.2
    ∧ |normAngle (3.1 - (-3.1))| ≠ 6.2 := by
  have habs : |normAngle (3.1 - (-3.1))| = 2 * π - 6.2 := by
    rw [normAngle_62, abs_of_nonpos (by have := Real.pi_gt_d6; linarith)]
    ring
  refine ⟨fun Xp x i => rfl, fun Zs zp i => rfl, normAngle_mem_Icc,
    fun θ h => normAngle_of_mem h, normAngle_62, habs, ?_⟩
  rw [habs]
  have := Real.pi_lt_d2
  intro hcontra
  linarith

/-- Witness for `angle_norm_range`: the identity clause applied at `θ = 1`. -/
theorem angle_norm_range_witness :
    (1 : ℝ) ∈ Set.Ioc (-π) π ∧ normAngle 1 = 1 := by
  have hm : (1 : ℝ) ∈ Set.Ioc (-π) π :=
    ⟨by have := Real.pi_gt_three; linarith, by have := Real.pi_gt_three; linarith⟩
  exact ⟨hm, angle_norm_range.2.2.2.1 1 hm⟩

/-! ## Claim C2: the fifteen weights -/

/-- C2: the weights consist of the center weight `lambda/(lambda+n_aug)` and
14 equal spread weights `1/(2*(lambda+n_aug))`, with `lambda = 3 - n_aug`,
`n_aug = 7`, so the center weight is `-4/3`, each spread weight is `1/6`,
and the fifteen weights sum to exactly `1`. -/
theorem weights_spec :
    lam = 3 - (n_aug : ℝ) ∧ n_aug = 7 ∧ lam = -4 ∧
    weights 0 = lam / (lam + (n_aug : ℝ)) ∧ weights 0 = -(4 / 3) ∧
    (∀ i : Fin 15, i ≠ 0 →
      weights i = 1 / (2 * (lam + (n_aug : ℝ))) ∧ weights i = 1 / 6) ∧
    ∑ i, weights i = 1 := by
  refine ⟨rfl, rfl, by norm_num [lam, n_aug], by simp [weights], weights_zero,
    ?_, weights_sum⟩
  intro i hi
  exact ⟨by simp [weights, hi], weights_ne_zero i hi⟩

/-- Witness for `weights_spec`: the spread-weight clause at index 1. -/
theorem weights_spec_witness : (1 : Fin 15) ≠ 0 ∧ weights 1 = 1 / 6 := by
  refine ⟨by decide, ?_⟩
  exact (weights_spec.2.2.2.2.2.1 1 (by decide)).2

/-! ## Claim C5: the straight-line branch is the limit of the curved branch -/

theorem sin_slope_tendsto (yaw dt : ℝ) :
    Tendsto (fun w : ℝ => (Real.sin (yaw + w * dt) - Real.sin yaw) / w) (𝓝[≠] 0)
      (𝓝 (Real.cos yaw * dt)) := by
  have inner : HasDerivAt (fun w : ℝ => yaw + w * dt) (1 * dt) 0 :=
    ((hasDerivAt_id 0).mul_const dt).const_add yaw
  have outer : HasDerivAt (fun w : ℝ => Real.sin (yaw + w * dt))
      (Real.cos (yaw + 0 * dt) * (1 * dt)) 0 := (Real.hasDerivAt_sin _).comp 0 inner
  rw [hasDerivAt_iff_tendsto_slope] at outer
  simp only [zero_mul, add_zero, one_mul] at outer
  refine outer.congr fun w => ?_
  rw [slope_def_field]
  simp

theorem cos_slope_tendsto (yaw dt : ℝ) :
    Tendsto (fun w : ℝ => (Real.cos (yaw + w * dt) - Real.cos yaw) / w) (𝓝[≠] 0)
      (𝓝 (-Real.sin yaw * dt)) := by
  have inner : HasDerivAt (fun w : ℝ => yaw + w * dt) (1 * dt) 0 :=
    ((hasDerivAt_id 0).mul_const dt).const_add yaw
  have outer : HasDerivAt (fun w : ℝ => Real.cos (yaw + w * dt))
      (-Real.sin (yaw + 0 * dt) * (1 * dt)) 0 := (Real.hasDerivAt_cos _).comp 0 inner
  rw [hasDerivAt_iff_tendsto_slope] at outer
  simp only [zero_mul, add_zero, one_mul] at outer
  refine outer.congr fun w => ?_
  rw [slope_def_field]
  simp

/-- C5: as the yaw-rate tends to `0`, the curved-path position update tends to
the straight-line update, in both coordinates; and at yaw-rate exactly `0`
the motion model takes the straight-line branch (its position components are
the straight-line updates plus the process-noise terms). -/
theorem ctrv_straight_is_limit_of_curved :
    (∀ px v yaw dt : ℝ,
      Tendsto (fun yawd => curvedPx px v yaw yawd dt) (𝓝[≠] 0)
        (𝓝 (straightPx px v yaw dt)))
    ∧ (∀ py v yaw dt : ℝ,
      Tendsto (fun yawd => curvedPy py v yaw yawd dt) (𝓝[≠] 0)
        (𝓝 (straightPy py v yaw dt)))
    ∧ (∀ px py v yaw nu_a nu_d dt : ℝ,
      ctrvProcess ![px, py, v, yaw, 0, nu_a, nu_d] dt 0
        = straightPx px v yaw dt + 0.5 * dt * dt * Real.cos yaw * nu_a
      ∧ ctrvProcess ![px, py, v, yaw, 0, nu_a, nu_d] dt 1
        = straightPy py v yaw dt + 0.5 * dt * dt * Real.sin yaw * nu_a) := by
  refine ⟨?_, ?_, ?_⟩
  · intro px v yaw dt
    have h2 := ((sin_slope_tendsto yaw dt).const_mul v).const_add px
    have heq : (fun w : ℝ => px + v * ((Real.sin (yaw + w * dt) - Real.sin yaw) / w))
        = fun w => curvedPx px v yaw w dt := by
      funext w
      rw [curvedPx]
      ring
    rw [heq] at h2
    have hval : px + v * (Real.cos yaw * dt) = straightPx px v yaw dt := by
      rw [straightPx]
      ring
    rwa [hval] at h2
  · intro py v yaw dt
    have h2 := (((cos_slope_tendsto yaw dt).neg.const_mul v).const_add py)
    have heq : (fun w : ℝ =>
        py + v * -((Real.cos (yaw + w * dt) - Real.cos yaw) / w))
        = fun w => curvedPy py v yaw w dt := by
      funext w
      rw [curvedPy]
      ring
    rw [heq] at h2
    have hval : py + v * -(-Real.sin yaw * dt) = straightPy py v yaw dt := by
      rw [straightPy]
      ring
    rwa [hval] at h2
  · intro px py v yaw nu_a nu_d dt
    have hbranch : ¬(|(0 : ℝ)| > 0.001) := by norm_num
    constructor
    · show (if |(0:ℝ)| > 0.001 then curvedPx px v yaw 0 dt else straightPx px v yaw dt)
        + 0.5 * dt * dt * Real.cos yaw * nu_a = _
      rw [if_neg hbranch]
    · show (if |(0:ℝ)| > 0.001 then curvedPy py v yaw 0 dt else straightPy py v yaw dt)
        + 0.5 * dt * dt * Real.sin yaw * nu_a = _
      rw [if_neg hbranch]

/-! ## Claim C1: symmetry and positive semi-definiteness of the covariance
updates -/

theorem vecMulVec_self_transpose {n : ℕ} (v : Fin n → ℝ) :
    (vecMulVec v v)ᵀ = vecMulVec v v := by
  ext i j
  simp [vecMulVec_apply, transpose_apply, mul_comm]

theorem predictCov_transpose (Xp : Matrix (Fin 5) (Fin 15) ℝ) :
    (predictCov Xp)ᵀ = predictCov Xp := by
  unfold predictCov
  rw [transpose_sum]
  refine Finset.sum_congr rfl fun i _ => ?_
  rw [transpose_smul, vecMulVec_self_transpose]

theorem radarS_transpose (Zs : Matrix (Fin 3) (Fin 15) ℝ) :
    (radarS Zs)ᵀ = radarS Zs := by
  unfold radarS Radar_R
  rw [transpose_add, transpose_sum, diagonal_transpose]
  congr 1
  refine Finset.sum_congr rfl fun i _ => ?_
  rw [transpose_smul, vecMulVec_self_transpose]

theorem lidarS_transpose {P : Matrix (Fin 5) (Fin 5) ℝ} (hP : Pᵀ = P) :
    (lidarS P)ᵀ = lidarS P := by
  unfold lidarS Lidar_R
  rw [transpose_add, diagonal_transpose, transpose_mul, transpose_mul,
    transpose_transpose, hP, Matrix.mul_assoc]

theorem lidarS_inv_transpose {P : Matrix (Fin 5) (Fin 5) ℝ} (hP : Pᵀ = P) :
    ((lidarS P)⁻¹)ᵀ = (lidarS P)⁻¹ := by
  rw [transpose_nonsing_inv, lidarS_transpose hP]

/-- Symmetry of the lidar covariance update `(I - K*H)*P` for symmetric `P`
(it equals `P - P Hᵀ S⁻¹ H P`, which is symmetric). -/
theorem updateLidarP_transpose {P : Matrix (Fin 5) (Fin 5) ℝ} (hP : Pᵀ = P) :
    ((1 - lidarK P * Lidar_H) * P)ᵀ = (1 - lidarK P * Lidar_H) * P := by
  have hSi := lidarS_inv_transpose hP
  have expand : (1 - lidarK P * Lidar_H) * P
      = P - P * Lidar_Hᵀ * (lidarS P)⁻¹ * Lidar_H * P := by
    unfold lidarK
    noncomm_ring
  rw [expand]
  rw [transpose_sub, transpose_mul, transpose_mul, transpose_mul, transpose_mul,
    transpose_transpose, hP, hSi]
  simp only [Matrix.mul_assoc]

/-- `Lidar_R_` is positive definite: its diagonal holds the squared lidar
noise standard deviations. -/
theorem lidarR_posDef : Lidar_R.PosDef := by
  rw [Lidar_R, posDef_diagonal_iff]
  intro i
  fin_cases i <;> norm_num [std_laspx, std_laspy]

theorem lidarS_posDef {P : Matrix (Fin 5) (Fin 5) ℝ} (hP : P.PosSemidef) :
    (lidarS P).PosDef := by
  have h1 : (Lidar_H * P * Lidar_Hᵀ).PosSemidef := by
    have h := hP.mul_mul_conjTranspose_same Lidar_H
    rwa [conjTranspose_eq_transpose_of_trivial] at h
  exact Matrix.PosDef.posSemidef_add h1 lidarR_posDef

theorem lidarS_det_isUnit {P : Matrix (Fin 5) (Fin 5) ℝ} (hP : P.PosSemidef) :
    IsUnit (lidarS P).det :=
  (Matrix.isUnit_iff_isUnit_det _).mp (lidarS_posDef hP).isUnit

theorem lidarK_mul_S {P : Matrix (Fin 5) (Fin 5) ℝ} (hP : P.PosSemidef) :
    lidarK P * lidarS P = P * Lidar_Hᵀ := by
  unfold lidarK
  rw [Matrix.mul_assoc, Matrix.nonsing_inv_mul _ (lidarS_det_isUnit hP),
    Matrix.mul_one]

/-- Joseph-form identity: with the exact gain `K = P Hᵀ S⁻¹`, the update
`(I - K H) P` equals `(I - K H) P (I - K H)ᵀ + K R Kᵀ`. -/
theorem updateLidarP_joseph {P : Matrix (Fin 5) (Fin 5) ℝ} (hP : P.PosSemidef) :
    (1 - lidarK P * Lidar_H) * P
      = (1 - lidarK P * Lidar_H) * P * (1 - lidarK P * Lidar_H)ᵀ
        + lidarK P * Lidar_R * (lidarK P)ᵀ := by
  have hKS : lidarK P * (Lidar_H * P * Lidar_Hᵀ + Lidar_R) = P * Lidar_Hᵀ :=
    lidarK_mul_S hP
  have hT : (1 - lidarK P * Lidar_H)ᵀ = 1 - Lidar_Hᵀ * (lidarK P)ᵀ := by
    rw [transpose_sub, transpose_one, transpose_mul]
  rw [hT]
  have key : (1 - lidarK P * Lidar_H) * P * (1 - Lidar_Hᵀ * (lidarK P)ᵀ)
      + lidarK P * Lidar_R * (lidarK P)ᵀ
      = (1 - lidarK P * Lidar_H) * P
        + (lidarK P * (Lidar_H * P * Lidar_Hᵀ + Lidar_R) - P * Lidar_Hᵀ)
          * (lidarK P)ᵀ := by
    simp only [Matrix.sub_mul, Matrix.mul_sub, Matrix.add_mul, Matrix.mul_add,
      Matrix.one_mul, Matrix.mul_one, Matrix.mul_assoc]
    abel
  rw [key, hKS, sub_self, Matrix.zero_mul, add_zero]

theorem updateLidarP_posSemidef {P : Matrix (Fin 5) (Fin 5) ℝ}
    (hP : P.PosSemidef) : ((1 - lidarK P * Lidar_H) * P).PosSemidef := by
  rw [updateLidarP_joseph hP]
  apply Matrix.PosSemidef.add
  · have h := hP.mul_mul_conjTranspose_same (1 - lidarK P * Lidar_H)
    rwa [conjTranspose_eq_transpose_of_trivial] at h
  · have h := lidarR_posDef.posSemidef.mul_mul_conjTranspose_same (lidarK P)
    rwa [conjTranspose_eq_transpose_of_trivial] at h

/-- A matrix with a negative diagonal entry is not positive semi-definite. -/
theorem not_posSemidef_of_diag_neg {n : ℕ} {M : Matrix (Fin n) (Fin n) ℝ}
    (i : Fin n) (h : M i i < 0) : ¬ M.PosSemidef := by
  intro hM
  have h2 := hM.2 (Pi.single i 1)
  simp [dotProduct, Matrix.mulVec, Pi.single_apply, mul_comm] at h2
  linarith

theorem predictMean_XcA_zero : predictMean XcA 0 = -(4 / 3) := by
  have h := sum_weights_mul (fun i => XcA 0 i) 0
    (fun i hi => by simp [XcA, hi])
  rw [predictMean, h]
  simp [XcA]

theorem stateDiff_XcA_zero (i : Fin 15) :
    stateDiff XcA (predictMean XcA) i 0 = XcA 0 i + 4 / 3 := by
  simp [stateDiff, predictMean_XcA_zero]

theorem predictCov_XcA_00 : predictCov XcA 0 0 = -(28 / 9) := by
  rw [predictCov, Matrix.sum_apply]
  have h1 : ∀ i : Fin 15,
      (weights i • vecMulVec (stateDiff XcA (predictMean XcA) i)
        (stateDiff XcA (predictMean XcA) i)) 0 0
      = weights i * ((XcA 0 i + 4 / 3) * (XcA 0 i + 4 / 3)) := by
    intro i
    rw [Matrix.smul_apply, vecMulVec_apply, stateDiff_XcA_zero]
    simp
  rw [Finset.sum_congr rfl fun i _ => h1 i]
  have h2 := sum_weights_mul (fun i => (XcA 0 i + 4 / 3) * (XcA 0 i + 4 / 3))
    (16 / 9) (fun i hi => by simp [XcA, hi]; norm_num)
  rw [h2]
  simp [XcA]
  norm_num

theorem radarRange_one_zero : radarRange 1 0 = 1 := by
  rw [radarRange, show (1 : ℝ) * 1 + 0 * 0 = 1 by norm_num, Real.sqrt_one]

theorem atan2_zero_one : atan2 0 1 = 0 := by
  simp [atan2, Real.arctan_zero]

theorem radarZsig_XcR : radarZsig XcR = ZcR := by
  ext j i
  fin_cases j
  · show radarRange (XcR 0 i) (XcR 1 i) = ZcR 0 i
    simp [XcR, ZcR, radarRange_one_zero]
  · show atan2 (XcR 1 i) (XcR 0 i) = ZcR 1 i
    simp [XcR, ZcR, atan2_zero_one]
  · show (XcR 0 i * (Real.cos (XcR 3 i) * XcR 2 i)
        + XcR 1 i * (Real.sin (XcR 3 i) * XcR 2 i))
        / radarRange (XcR 0 i) (XcR 1 i) = ZcR 2 i
    simp [XcR, ZcR, radarRange_one_zero]

theorem radarZpred_ZcR : radarZpred ZcR = ![1, 0, -(2 / 15)] := by
  funext j
  fin_cases j
  · show ∑ i, weights i * ZcR 0 i = 1
    calc ∑ i, weights i * ZcR 0 i = ∑ i, weights i := by
          refine Finset.sum_congr rfl fun i _ => ?_
          simp [ZcR]
      _ = 1 := weights_sum
  · show ∑ i, weights i * ZcR 1 i = 0
    simp [ZcR]
  · show ∑ i, weights i * ZcR 2 i = -(2 / 15)
    have h : ∀ i : Fin 15, (i : Fin 15) ≠ 0 → ZcR 2 i = 0 := by
      intro i hi
      simp [ZcR, vcR, hi]
    rw [show (∑ i, weights i * ZcR 2 i) = ∑ i, weights i * (fun k => ZcR 2 k) i from rfl,
      sum_weights_mul (fun k => ZcR 2 k) 0 h]
    simp [ZcR, vcR]
    norm_num

theorem measDiff_ZcR (i : Fin 15) :
    measDiff ZcR (radarZpred ZcR) i = fun j => if j = 2 then dvR i else 0 := by
  funext j
  rw [measDiff, radarZpred_ZcR]
  fin_cases j
  · simp [ZcR]
  · simp [ZcR, normAngle_zero]
  · rcases eq_or_ne i 0 with hi | hi <;> simp [ZcR, vcR, dvR, hi] <;> norm_num

theorem sum_weights_dvR_sq : ∑ i, weights i * (dvR i * dvR i) = -(7 / 225) := by
  rw [sum_weights_mul (fun i => dvR i * dvR i) (2 / 15 * (2 / 15))
    (fun i hi => by simp [dvR, hi])]
  simp [dvR]
  norm_num

theorem radarS_ZcR : radarS ZcR = Matrix.diagonal ![9 / 100, 9 / 10000, 53 / 900] := by
  ext j k
  rw [radarS, Matrix.add_apply, Matrix.sum_apply]
  have hterm : ∀ i : Fin 15,
      (weights i • vecMulVec (measDiff ZcR (radarZpred ZcR) i)
        (measDiff ZcR (radarZpred ZcR) i)) j k
      = weights i * ((if j = 2 then dvR i else 0) * (if k = 2 then dvR i else 0)) := by
    intro i
    rw [Matrix.smul_apply, vecMulVec_apply, measDiff_ZcR]
    simp
  rw [Finset.sum_congr rfl fun i _ => hterm i]
  by_cases hjk : j = 2 ∧ k = 2
  · obtain ⟨hj, hk⟩ := hjk
    subst hj
    subst hk
    simp only [eq_self_iff_true, if_true]
    rw [sum_weights_dvR_sq]
    norm_num [Radar_R, Matrix.diagonal_apply, std_radrd]
  · have hz : ∀ x : Fin 15,
        weights x * ((if j = 2 then dvR x else 0) * (if k = 2 then dvR x else 0)) = 0 := by
      intro x
      rcases not_and_or.mp hjk with h | h <;> simp [h]
    rw [Finset.sum_congr rfl fun x _ => hz x]
    rw [Finset.sum_const_zero, zero_add]
    fin_cases j <;> fin_cases k <;>
      first
        | (norm_num [Radar_R, Matrix.diagonal_apply, Fin.ext_iff, std_radr,
            std_radphi, std_radrd]; done)
        | exact absurd ⟨by decide, by decide⟩ hjk

theorem radarS_ZcR_inv :
    (radarS ZcR)⁻¹ = Matrix.diagonal ![100 / 9, 10000 / 9, 900 / 53] := by
  rw [radarS_ZcR]
  apply Matrix.inv_eq_right_inv
  rw [Matrix.diagonal_mul_diagonal]
  have h : (fun i => (![9 / 100, 9 / 10000, 53 / 900] : Fin 3 → ℝ) i
      * (![100 / 9, 10000 / 9, 900 / 53] : Fin 3 → ℝ) i) = fun _ => (1 : ℝ) := by
    funext i
    fin_cases i <;> norm_num
  rw [h]
  exact Matrix.diagonal_one

theorem stateDiff_XcR (i : Fin 15) :
    stateDiff XcR sCR.x i = fun j => if j = 2 then dvR i else 0 := by
  have hx : sCR.x = ![1, 0, -(2 / 15), 0, 0] := rfl
  funext j
  rw [stateDiff, hx]
  fin_cases j
  · simp [XcR]
  · simp [XcR]
  · rcases eq_or_ne i 0 with hi | hi <;> simp [XcR, vcR, dvR, hi] <;> norm_num
  · simp [XcR, normAngle_zero]
  · simp [XcR]

theorem radarTc_ZcR : radarTc XcR sCR.x ZcR
    = fun j k => if j = 2 ∧ k = 2 then -(7 / 225) else 0 := by
  ext j k
  rw [radarTc, Matrix.sum_apply]
  have hterm : ∀ i : Fin 15,
      (weights i • vecMulVec (stateDiff XcR sCR.x i)
        (measDiff ZcR (radarZpred ZcR) i)) j k
      = weights i * ((if j = 2 then dvR i else 0) * (if k = 2 then dvR i else 0)) := by
    intro i
    rw [Matrix.smul_apply, vecMulVec_apply, stateDiff_XcR, measDiff_ZcR]
    simp
  rw [Finset.sum_congr rfl fun i _ => hterm i]
  by_cases hjk : j = 2 ∧ k = 2
  · obtain ⟨hj, hk⟩ := hjk
    subst hj
    subst hk
    simp only [eq_self_iff_true, if_true, and_self]
    exact sum_weights_dvR_sq
  · have hz : ∀ x : Fin 15,
        weights x * ((if j = 2 then dvR x else 0) * (if k = 2 then dvR x else 0)) = 0 := by
      intro x
      rcases not_and_or.mp hjk with h | h <;> simp [h]
    rw [Finset.sum_congr rfl fun x _ => hz x, Finset.sum_const_zero, if_neg hjk]

/-- The covariance written by `UpdateRadar` (ukf.cpp:337), spelled out. -/
theorem updateRadar_P_eq (s : UKFState) (m : MeasurementPackage) :
    (updateRadar s m).P
      = s.P - (radarTc s.Xsig_pred s.x (radarZsig s.Xsig_pred)
            * (radarS (radarZsig s.Xsig_pred))⁻¹)
          * radarS (radarZsig s.Xsig_pred)
          * (radarTc s.Xsig_pred s.x (radarZsig s.Xsig_pred)
            * (radarS (radarZsig s.Xsig_pred))⁻¹)ᵀ := rfl

/-- The covariance written by `UpdateLidar` (ukf.cpp:254), spelled out. -/
theorem updateLidar_P_eq (s : UKFState) (m : MeasurementPackage) :
    (updateLidar s m).P = (1 - lidarK s.P * Lidar_H) * s.P := rfl

theorem updateRadar_sCR_P_22 : (updateRadar sCR mCR).P 2 2 = -(196 / 11925) := by
  rw [updateRadar_P_eq]
  have h0 : sCR.P = 0 := rfl
  have hXp : sCR.Xsig_pred = XcR := rfl
  rw [h0, hXp, radarZsig_XcR, radarTc_ZcR, radarS_ZcR_inv, radarS_ZcR]
  simp [Matrix.sub_apply, Matrix.mul_apply, Matrix.transpose_apply,
    Matrix.diagonal_apply, Fin.sum_univ_three, Fin.ext_iff]
  norm_num

theorem sub_KSKT_transpose {P : Matrix (Fin 5) (Fin 5) ℝ}
    {K : Matrix (Fin 5) (Fin 3) ℝ} {S : Matrix (Fin 3) (Fin 3) ℝ}
    (hP : Pᵀ = P) (hS : Sᵀ = S) :
    (P - K * S * Kᵀ)ᵀ = P - K * S * Kᵀ := by
  rw [transpose_sub, hP, transpose_mul, transpose_mul, transpose_transpose, hS,
    ← Matrix.mul_assoc]

/-- C1 counterexample: both with a symmetric positive semi-definite prior
covariance, the sigma-point recombination (center weight `-4/3` is negative)
and the radar correction `P - K S Kᵀ` can produce a covariance with a negative
diagonal entry, hence not positive semi-definite. -/
theorem cov_psd_counterexample :
    (sCA.P.PosSemidef ∧ sCA.Pᵀ = sCA.P
      ∧ ¬ ((predictMeanAndCovariance sCA).P).PosSemidef)
    ∧ (sCR.P.PosSemidef ∧ sCR.Pᵀ = sCR.P
      ∧ ¬ ((updateRadar sCR mCR).P).PosSemidef) := by
  constructor
  · refine ⟨Matrix.PosSemidef.one, transpose_one, ?_⟩
    have h : (predictMeanAndCovariance sCA).P = predictCov XcA := rfl
    rw [h]
    exact not_posSemidef_of_diag_neg 0 (by rw [predictCov_XcA_00]; norm_num)
  · refine ⟨Matrix.PosSemidef.zero, transpose_zero, ?_⟩
    exact not_posSemidef_of_diag_neg 2 (by rw [updateRadar_sCR_P_22]; norm_num)

/-- C1 (amended): every covariance-mutating operation (the prediction-cycle
recombination, the lidar correction, and the radar correction) preserves
symmetry of the covariance, and the lidar correction additionally preserves
positive semi-definiteness.  (Neither the recombination nor the radar
correction preserves positive semi-definiteness in general, because the
center weight `-4/3` is negative; see the counterexample.) -/
theorem cov_update_symm_lidar_psd :
    (∀ s : UKFState,
      ((predictMeanAndCovariance s).P)ᵀ = (predictMeanAndCovariance s).P)
    ∧ (∀ (s : UKFState) (m : MeasurementPackage), s.Pᵀ = s.P →
        ((updateLidar s m).P)ᵀ = (updateLidar s m).P)
    ∧ (∀ (s : UKFState) (m : MeasurementPackage), s.P.PosSemidef →
        ((updateLidar s m).P).PosSemidef)
    ∧ (∀ (s : UKFState) (m : MeasurementPackage), s.Pᵀ = s.P →
        ((updateRadar s m).P)ᵀ = (updateRadar s m).P) := by
  refine ⟨fun s => predictCov_transpose s.Xsig_pred, fun s m hP => ?_,
    fun s m hP => ?_, fun s m hP => ?_⟩
  · rw [updateLidar_P_eq]
    exact updateLidarP_transpose hP
  · rw [updateLidar_P_eq]
    exact updateLidarP_posSemidef hP
  · rw [updateRadar_P_eq]
    exact sub_KSKT_transpose hP (radarS_transpose _)

/-- Witness for `cov_update_symm_lidar_psd` at the identity covariance. -/
theorem cov_update_symm_lidar_psd_witness :
    witState.Pᵀ = witState.P ∧ witState.P.PosSemidef
    ∧ ((updateLidar witState witMeas).P)ᵀ = (updateLidar witState witMeas).P
    ∧ ((updateLidar witState witMeas).P).PosSemidef
    ∧ ((updateRadar witState witMeasRadar).P)ᵀ
        = (updateRadar witState witMeasRadar).P := by
  have hT : witState.Pᵀ = witState.P := transpose_one
  have hP : witState.P.PosSemidef := Matrix.PosSemidef.one
  exact ⟨hT, hP, cov_update_symm_lidar_psd.2.1 witState witMeas hT,
    cov_update_symm_lidar_psd.2.2.1 witState witMeas hP,
    cov_update_symm_lidar_psd.2.2.2 witState witMeasRadar hT⟩

/-! ## Claim C6: disabled sensors are skipped after initialization -/

/-- C6: once initialized, a measurement whose sensor's fusion flag is
disabled triggers no corrector — the resulting state is exactly the
predicted state with only the reference time recorded — while the very
first measurement always runs the initializer, whatever the two flags are. -/
theorem disabled_sensor_skips_update :
    (∀ llt (s : UKFState) (m : MeasurementPackage), s.is_initialized = true →
      m.sensor_type = SensorType.LASER → s.use_laser = false →
      processMeasurement llt s m
        = { prediction llt (deltaT s m) s with time_us := m.timestamp })
    ∧ (∀ llt (s : UKFState) (m : MeasurementPackage), s.is_initialized = true →
      m.sensor_type = SensorType.RADAR → s.use_radar = false →
      processMeasurement llt s m
        = { prediction llt (deltaT s m) s with time_us := m.timestamp })
    ∧ (∀ llt (s : UKFState) (m : MeasurementPackage) (b1 b2 : Bool),
      s.is_initialized = false →
      processMeasurement llt { s with use_laser := b1, use_radar := b2 } m
        = { initState s m with use_laser := b1, use_radar := b2 }) := by
  refine ⟨?_, ?_, ?_⟩
  · intro llt s m h1 h2 h3
    simp [processMeasurement, h1, h2, h3]
  · intro llt s m h1 h2 h3
    simp [processMeasurement, h1, h2, h3]
  · intro llt s m b1 b2 h1
    rcases hm : m.sensor_type with _ | _ <;>
      simp [processMeasurement, h1, initState, hm]

/-- Witness for `disabled_sensor_skips_update`: a disabled-lidar state. -/
theorem disabled_sensor_skips_update_witness :
    disState.is_initialized = true ∧ witMeas.sensor_type = SensorType.LASER
    ∧ disState.use_laser = false
    ∧ processMeasurement (fun A => A) disState witMeas
      = { prediction (fun A => A) (deltaT disState witMeas) disState with
          time_us := witMeas.timestamp } :=
  ⟨rfl, rfl, rfl,
    disabled_sensor_skips_update.1 (fun A => A) disState witMeas rfl rfl rfl⟩

/-! ## Claim C7: initialization from the first lidar measurement -/

/-- C7: the first measurement, when it is a lidar measurement with raw values
`(1, 2)`, initializes the mean to `(1, 2, 0, 0, 0)` and the covariance to
`diag(0.0225, 0.0225, 1, 1, 1)`, marks the estimator initialized, and records
the timestamp. -/
theorem first_lidar_measurement_initializes :
    ∀ llt (s : UKFState) (m : MeasurementPackage), s.is_initialized = false →
      m.sensor_type = SensorType.LASER → m.raw = [1, 2] →
      (processMeasurement llt s m).x = ![1, 2, 0, 0, 0]
      ∧ (processMeasurement llt s m).P
          = Matrix.diagonal ![0.0225, 0.0225, 1, 1, 1]
      ∧ (processMeasurement llt s m).is_initialized = true
      ∧ (processMeasurement llt s m).time_us = m.timestamp := by
  intro llt s m h1 h2 h3
  have hpm : processMeasurement llt s m = initState s m := by
    simp [processMeasurement, h1]
  rw [hpm, initState, if_pos h2]
  refine ⟨?_, ?_, rfl, rfl⟩
  · show ![m.raw.getD 0 0, m.raw.getD 1 0, 0, 0, 0] = ![1, 2, 0, 0, 0]
    rw [h3]
    norm_num
  · show Matrix.diagonal ![std_laspx * std_laspx, std_laspy * std_laspy, 1, 1, 1]
        = Matrix.diagonal ![0.0225, 0.0225, 1, 1, 1]
    have hv : (![std_laspx * std_laspx, std_laspy * std_laspy, 1, 1, 1] : Fin 5 → ℝ)
        = ![0.0225, 0.0225, 1, 1, 1] := by
      funext i
      fin_cases i <;> norm_num [std_laspx, std_laspy]
    rw [hv]

/-- Witness for `first_lidar_measurement_initializes`. -/
theorem first_lidar_measurement_initializes_witness :
    preInitState.is_initialized = false
    ∧ witMeas.sensor_type = SensorType.LASER ∧ witMeas.raw = [1, 2]
    ∧ (processMeasurement (fun A => A) preInitState witMeas).x = ![1, 2, 0, 0, 0] :=
  ⟨rfl, rfl, rfl,
    (first_lidar_measurement_initializes (fun A => A) preInitState witMeas
      rfl rfl rfl).1⟩

/-! ## Claim C8: no length validation of the raw-measurement vector -/

/-- C8 (code behaviour): a declared-lidar record whose raw vector has only
one component is not rejected: `ProcessMeasurement` runs the initializer on
it, reading component 0 (the read of the missing component 1 is an unchecked
out-of-range Eigen access, modelled here by the list default `0`). -/
theorem wrong_length_not_rejected :
    ∀ llt, (processMeasurement llt preInitState malformedLaser).is_initialized = true
      ∧ (processMeasurement llt preInitState malformedLaser).x 0 = 5
      ∧ (processMeasurement llt preInitState malformedLaser).time_us
          = malformedLaser.timestamp := by
  intro llt
  have hpm : processMeasurement llt preInitState malformedLaser
      = initState preInitState malformedLaser := by
    simp [processMeasurement, preInitState, witState]
  rw [hpm, initState,
    if_pos (show malformedLaser.sensor_type = SensorType.LASER from rfl)]
  refine ⟨rfl, ?_, rfl⟩
  show ![(malformedLaser.raw).getD 0 0, (malformedLaser.raw).getD 1 0, 0, 0, 0] 0 = 5
  norm_num [malformedLaser]

/-! ## Claim C9: no policy for non-increasing timestamps -/

/-- C9 (code behaviour): a measurement whose timestamp equals the recorded
reference time yields elapsed time `0`, and `ProcessMeasurement` neither
rejects it nor clamps the elapsed time: it runs the full prediction with
`delta_t = 0` and then the corrector. -/
theorem nonpositive_delta_t_not_rejected :
    ∀ llt, deltaT staleState staleMeas = 0
      ∧ processMeasurement llt staleState staleMeas
        = updateLidar
            { prediction llt 0 staleState with time_us := staleMeas.timestamp }
            staleMeas := by
  intro llt
  have hdt : deltaT staleState staleMeas = 0 := by
    norm_num [deltaT, staleState, staleMeas, witState]
  refine ⟨hdt, ?_⟩
  have h1 : staleState.is_initialized = true := rfl
  have h2 : staleMeas.sensor_type = SensorType.LASER := rfl
  have h3 : staleState.use_laser = true := rfl
  simp [processMeasurement, h1, h2, h3, hdt]

/-! ## Claim C3: factorization and inversion failures are not reported -/

/-- C3 (code behaviour): even when the augmented covariance is not positive
definite — so `P_aug.llt()` cannot succeed and Eigen returns an unusable
factor — the prediction step reports nothing and unconditionally builds
sigma points from whatever factor the library returned, propagates them, and
recombines them into a new state; there is no error path. -/
theorem degenerate_factorization_unreported :
    ∀ llt (dt : ℝ) (s : UKFState), ¬ (P_aug s.P).PosDef →
      prediction llt dt s = predictMeanAndCovariance
        { s with Xsig_pred :=
            sigmaPointsPrediction (generateSigmaPoints llt s.x s.P) dt } := by
  intro llt dt s hdeg
  rfl

/-- Witness for `degenerate_factorization_unreported`: a negative-definite
covariance. -/
theorem degenerate_factorization_unreported_witness :
    ¬ (P_aug degState.P).PosDef
    ∧ prediction (fun A => A) 1 degState = predictMeanAndCovariance
        { degState with Xsig_pred :=
            (sigmaPointsPrediction
              (generateSigmaPoints (fun A => A) degState.x degState.P) 1) } := by
  have hdeg : ¬ (P_aug degState.P).PosDef := by
    intro h
    have hx : (Pi.single (0 : Fin 7) (1 : ℝ) : Fin 7 → ℝ) ≠ 0 := by
      intro hc
      have := congrFun hc 0
      simp [Pi.single_eq_same] at this
    have h2 := h.2 (Pi.single 0 1) hx
    simp [dotProduct, Matrix.mulVec, Pi.single_apply, P_aug, degState, witState,
      Matrix.neg_apply, Matrix.one_apply, mul_comm] at h2
    linarith
  exact ⟨hdeg,
    degenerate_factorization_unreported (fun A => A) 1 degState hdeg⟩

/-! ## Claim C10: the radar projection's divisor -/

/-- C10: the radar measurement model divides the range-rate by
`sqrt(p_x*p_x + p_y*p_y)` with no guard; that divisor vanishes exactly when
the predicted position is the origin, so the projection is well-defined for
every sigma point away from the origin, while a sigma point at the origin
makes the divisor zero and its bearing the expression `atan2 0 0`. -/
theorem radar_projection_divisor :
    (∀ px py : ℝ, ¬(px = 0 ∧ py = 0) → radarRange px py ≠ 0)
    ∧ (∀ px py : ℝ, radarRange px py = 0 → px = 0 ∧ py = 0)
    ∧ radarRange 0 0 = 0
    ∧ (∀ Xp : Matrix (Fin 5) (Fin 15) ℝ, ∀ i, Xp 0 i = 0 → Xp 1 i = 0 →
        radarZsig Xp 1 i = atan2 0 0 ∧ atan2 0 0 = 0) := by
  have hzero : ∀ px py : ℝ, radarRange px py = 0 → px = 0 ∧ py = 0 := by
    intro px py h
    rw [radarRange] at h
    have hle : px * px + py * py ≤ 0 := Real.sqrt_eq_zero'.mp h
    have hpx : px * px = 0 :=
      le_antisymm (by nlinarith [mul_self_nonneg py]) (mul_self_nonneg px)
    have hpy : py * py = 0 :=
      le_antisymm (by nlinarith [mul_self_nonneg px]) (mul_self_nonneg py)
    exact ⟨mul_self_eq_zero.mp hpx, mul_self_eq_zero.mp hpy⟩
  refine ⟨?_, hzero, ?_, ?_⟩
  · intro px py hne h
    exact hne (hzero px py h)
  · rw [radarRange, show (0 : ℝ) * 0 + 0 * 0 = 0 by norm_num, Real.sqrt_zero]
  · intro Xp i h0 h1
    constructor
    · show atan2 (Xp 1 i) (Xp 0 i) = atan2 0 0
      rw [h0, h1]
    · simp [atan2]

/-- Witness for `radar_projection_divisor`: the sigma-point position
`(1, 0)` has a nonzero divisor, the zero divisor at the origin really forces
the origin, and a zero sigma point has bearing `atan2 0 0`. -/
theorem radar_projection_divisor_witness :
    (¬((1 : ℝ) = 0 ∧ (0 : ℝ) = 0) ∧ radarRange 1 0 ≠ 0)
    ∧ ((0 : ℝ) = 0 ∧ (0 : ℝ) = 0)
    ∧ radarZsig (fun _ _ => 0) 1 0 = atan2 0 0 := by
  refine ⟨⟨by norm_num, radar_projection_divisor.1 1 0 (by norm_num)⟩, ?_, ?_⟩
  · exact radar_projection_divisor.2.1 0 0 radar_projection_divisor.2.2.1
  · exact (radar_projection_divisor.2.2.2 (fun _ _ => 0) 0 rfl rfl).1
